import Mathlib

/-!
Verification of the `core/views.py` request handlers of the
py-company-task-manager repository, over a shallow embedding.

The data model (Worker, Task) is embedded as Lean structures; the
relational store is a list of records.  Each view function of
`core/views.py` that the claims mention is embedded as a pure Lean
function over the store, returning an HTTP-level result and (for
mutating views) the updated store.
-/

set_option autoImplicit false

namespace CompanyTaskManager

/-- A `Worker` record (the project's custom user model): id (pk),
first/last name, and the id of the project the worker belongs to. -/
structure Worker where
  id : Nat
  first_name : String
  last_name : String
  project : Nat
  deriving DecidableEq, Repr

/-- A `Task` record: pk, name, deadline (a date, embedded as the ordinal
day number so `<` is date comparison), priority (a string field whose
values include "Urgent"), completion flag `is_completed`, owning
project id, and the ids of the assignee workers (the many-to-many
`assignees` relation). -/
structure Task where
  id : Nat
  name : String
  deadline : Int
  priority : String
  is_completed : Bool
  project : Nat
  assignees : List Nat
  deriving DecidableEq, Repr

/-- The result of a request handler: a plain `HttpResponse` with a
status and a body, an `HttpResponseRedirect` (always status 302) to a
url, or a rendered template page. -/
inductive HttpResult where
  | resp (status : Nat) (body : String)
  | redirect (status : Nat) (url : String)
  | rendered
  deriving DecidableEq, Repr

/-- Errors raised by the ORM: `Task.objects.get` raises `DoesNotExist`
when no row matches. -/
inductive DbError where
  | doesNotExist
  deriving DecidableEq, Repr

/-- `Task.objects.get(pk=pk)`: the unique row with primary key `pk`,
embedded as the first list element with that id. -/
def tasksGet : List Task → Nat → Option Task
  | [], _ => none
  | t :: ts, pk => if t.id == pk then some t else tasksGet ts pk

/-- `task.save()`: write the record back into the store, replacing the
row with the same primary key. -/
def saveTask (tasks : List Task) (t : Task) : List Task :=
  tasks.map (fun u => if u.id == t.id then t else u)

/-- `reverse("core:task-detail", args=(pk,))`: the task detail url. -/
def taskDetailUrl (pk : Nat) : String :=
  "/tasks/" ++ toString pk ++ "/"

/-- `toggle_completed(request, pk)` from `core/views.py`:
look the task up by pk (raising `DoesNotExist` if absent); if the acting
worker is among the task's assignees, negate `is_completed`, save, and
redirect (302) to the task detail page; otherwise answer
`HttpResponse("Unauthorized", status=405)` without mutating.
The second component is the store after the request (the exception path
aborts before any write, so the store is returned unchanged there). -/
def toggle_completed (tasks : List Task) (user : Worker) (pk : Nat) :
    Except DbError HttpResult × List Task :=
  match tasksGet tasks pk with
  | none => (Except.error DbError.doesNotExist, tasks)
  | some task =>
    if user.id ∈ task.assignees then
      let task' := { task with is_completed := !task.is_completed }
      (Except.ok (HttpResult.redirect 302 (taskDetailUrl pk)), saveTask tasks task')
    else
      (Except.ok (HttpResult.resp 405 "Unauthorized"), tasks)

/-- `TaskUpdateView.get`: load the target task; if its project differs
from the acting worker's project, answer
`HttpResponse("Unauthorized", status=405)`; otherwise render the update
form via `super().get`.  `none` is the `Http404` of a failed
`get_object`.  The handler never writes, so the store is returned as
is. -/
def taskUpdateViewGet (tasks : List Task) (user : Worker) (pk : Nat) :
    Option (HttpResult × List Task) :=
  match tasksGet tasks pk with
  | none => none
  | some obj =>
    if obj.project ≠ user.project then
      some (HttpResult.resp 405 "Unauthorized", tasks)
    else
      some (HttpResult.rendered, tasks)

/-- `TaskDeleteView.get`: same guard as `TaskUpdateView.get` — load the
target task, reject with `HttpResponse("Unauthorized", status=405)` when
its project differs from the acting worker's project, else render the
delete confirmation page.  The handler never writes. -/
def taskDeleteViewGet (tasks : List Task) (user : Worker) (pk : Nat) :
    Option (HttpResult × List Task) :=
  match tasksGet tasks pk with
  | none => none
  | some obj =>
    if obj.project ≠ user.project then
      some (HttpResult.resp 405 "Unauthorized", tasks)
    else
      some (HttpResult.rendered, tasks)

/-- `reverse("core:task-list", args=(project_id,))`: the task list url
of a project (`/projects/<project_id>/tasks/`). -/
def taskListUrl (pid : Nat) : String :=
  "/projects/" ++ toString pid ++ "/tasks/"

/-- `task.delete()`: remove the row with the given primary key from the
store. -/
def deleteTask (tasks : List Task) (pk : Nat) : List Task :=
  tasks.filter (fun u => u.id != pk)

/-- POST request path of `TaskDeleteView` as `core/views.py` leaves it:
the class overrides only `get`, so a POST falls through to the generic
`DeleteView` mutation inherited from the framework — load the object by
pk (`none` is the 404 of a failed lookup), compute the success url from
the task's own project (`get_success_url`, `views.py:135-136`), delete
the row, and redirect.  No comparison against the acting worker's
project occurs anywhere on this path; the worker argument is unused
exactly because `core/views.py` adds no check to `post`. -/
def taskDeleteViewPost (tasks : List Task) (_user : Worker) (pk : Nat) :
    Option (HttpResult × List Task) :=
  match tasksGet tasks pk with
  | none => none
  | some obj =>
    some (HttpResult.redirect 302 (taskListUrl obj.project),
          deleteTask tasks pk)

/-- POST request path of `TaskUpdateView` as `core/views.py` leaves it:
only `get` is overridden, so a POST falls through to the generic
`UpdateView` mutation inherited from the framework — load the object by
pk, apply the validated form data (`edit`; `TaskForm` lives in
`core/forms.py`, outside src/, and the spec describes it only as
carrying the request context and binding newly created tasks to the
acting worker's project, so no project guard is attributed to it on
update), save, and redirect to the task list of the saved task's
project (`get_success_url`, `views.py:114-115`).  As with the delete
path, no comparison against the acting worker's project occurs. -/
def taskUpdateViewPost (tasks : List Task) (_user : Worker) (pk : Nat)
    (edit : Task → Task) : Option (HttpResult × List Task) :=
  match tasksGet tasks pk with
  | none => none
  | some obj =>
    let obj' := edit obj
    some (HttpResult.redirect 302 (taskListUrl obj'.project),
          saveTask tasks obj')

/-- `TaskListView.get_queryset`: restrict the task table to the project
id taken from the url, then apply the selected filters: deadline
strictly before today for `past_dl`, priority equal to "Urgent" for
`urgent`, and `is_completed=True` when `done` is selected, else
`is_completed=False`. -/
def taskListGetQueryset (tasks : List Task) (project_id : Nat)
    (filters : List String) (today : Int) : List Task :=
  let queryset := tasks.filter (fun t => t.project == project_id)
  let queryset :=
    if "past_dl" ∈ filters then
      queryset.filter (fun t => t.deadline < today)
    else queryset
  let queryset :=
    if "urgent" ∈ filters then
      queryset.filter (fun t => t.priority == "Urgent")
    else queryset
  if "done" ∈ filters then
    queryset.filter (fun t => t.is_completed)
  else
    queryset.filter (fun t => !t.is_completed)

/-- Lower-case a string as a character list (the lowering performed by
the `icontains` lookups). -/
def lowerList (s : String) : List Char :=
  s.toList.map Char.toLower

/-- Does `l` start with `n`?  (Helper for the substring test.) -/
def charsLeadWith : List Char → List Char → Bool
  | [], _ => true
  | _ :: _, [] => false
  | a :: as, b :: bs => a == b && charsLeadWith as bs

/-- `field__icontains=needle`: case-insensitive substring test,
executable form. -/
def strContainsCI (hay needle : String) : Bool :=
  let h := lowerList hay
  let n := lowerList needle
  (List.range (h.length + 1)).any (fun i => charsLeadWith n (h.drop i))

/-- Case-insensitive substring containment as the spec states it: the
lowered haystack has the lowered needle as a contiguous segment. -/
def ciSubstr (hay needle : String) : Prop :=
  ∃ l r, lowerList hay = l ++ lowerList needle ++ r

/-- Python truthiness of `request.GET.get("name")`: `None` and the
empty string are falsy. -/
def pyTruthy : Option String → Bool
  | none => false
  | some s => !s.isEmpty

/-- `WorkerListView.get_queryset`: when the `name` query parameter is
truthy, keep the workers whose first or last name contains it
case-insensitively (`Q(first_name__icontains=name) |
Q(last_name__icontains=name)`); otherwise return all workers. -/
def workerListGetQueryset (workers : List Worker) (name : Option String) :
    List Worker :=
  if pyTruthy name then
    workers.filter (fun w =>
      strContainsCI w.first_name (name.getD "") ||
      strContainsCI w.last_name (name.getD ""))
  else
    workers

/-- `WorkerListView.get_context_data`'s `num_workers`:
`get_user_model().objects.count()`, independent of the search string. -/
def workerListNumWorkers (workers : List Worker) : Nat :=
  workers.length

/-! Concrete records used to instantiate the theorems: the scenario of
spec §8 (project 1, `demoT1` not done / urgent / deadline in the past,
`demoT2` done) and the worker-search example ("Ana Smith",
"Juliana Ruiz", "Bob Lee").  Today is day 100, so `demoT1`'s deadline
99 is yesterday. -/

def demoT1 : Task := ⟨1, "T1", 99, "Urgent", false, 1, [7]⟩

def demoT2 : Task := ⟨2, "T2", 100, "Normal", true, 1, []⟩

def demoAssignee : Worker := ⟨7, "Eve", "Stone", 1⟩

def demoOutsider : Worker := ⟨3, "Bob", "Lee", 2⟩

def anaSmith : Worker := ⟨1, "Ana", "Smith", 1⟩

def julianaRuiz : Worker := ⟨2, "Juliana", "Ruiz", 1⟩

def bobLee : Worker := ⟨3, "Bob", "Lee", 2⟩

/-! ### Helper lemmas -/

/-- Membership in the filtered task listing, characterised: a task is
listed iff it is stored, belongs to the requested project, meets each
selected filter, and its completion flag equals the presence of the
`done` filter. -/
theorem mem_taskList_iff (tasks : List Task) (pid : Nat) (filters : List String)
    (today : Int) (t : Task) :
    t ∈ taskListGetQueryset tasks pid filters today ↔
      t ∈ tasks ∧ t.project = pid ∧
      ("past_dl" ∈ filters → t.deadline < today) ∧
      ("urgent" ∈ filters → t.priority = "Urgent") ∧
      t.is_completed = decide ("done" ∈ filters) := by
  unfold taskListGetQueryset
  by_cases h1 : "past_dl" ∈ filters <;>
    by_cases h2 : "urgent" ∈ filters <;>
      by_cases h3 : "done" ∈ filters <;>
        simp [h1, h2, h3, List.mem_filter, and_assoc] <;>
          tauto

/-- After saving a record whose id is the looked-up pk, the lookup
yields exactly that record (provided some record with that pk was
already stored). -/
theorem tasksGet_saveTask (tasks : List Task) (t : Task) (pk : Nat)
    (h : ∃ u, tasksGet tasks pk = some u) (ht : t.id = pk) :
    tasksGet (saveTask tasks t) pk = some t := by
  induction tasks with
  | nil => simp [tasksGet] at h
  | cons a l ih =>
    by_cases ha : a.id = pk
    · simp [tasksGet, saveTask, ha, ht]
    · have hmap : saveTask (a :: l) t = a :: saveTask l t := by
        simp [saveTask, ht, ha]
      rw [hmap]
      simp only [tasksGet, beq_iff_eq, ha, if_false] at h ⊢
      exact ih h

/-- A successful `tasksGet` returns a record carrying the looked-up
pk. -/
theorem tasksGet_id (tasks : List Task) (pk : Nat) (t : Task)
    (h : tasksGet tasks pk = some t) : t.id = pk := by
  induction tasks with
  | nil => simp [tasksGet] at h
  | cons a l ih =>
    by_cases ha : a.id = pk
    · simp [tasksGet, ha] at h
      rw [← h]; exact ha
    · simp only [tasksGet, beq_iff_eq, ha, if_false] at h
      exact ih h

/-- `charsLeadWith n h` holds exactly when `h` starts with `n`. -/
theorem charsLeadWith_iff (n : List Char) :
    ∀ h : List Char, charsLeadWith n h = true ↔ ∃ r, h = n ++ r := by
  induction n with
  | nil =>
    intro h
    simp [charsLeadWith]
  | cons a as ih =>
    intro h
    cases h with
    | nil => simp [charsLeadWith]
    | cons b bs =>
      simp [charsLeadWith, Bool.and_eq_true, beq_iff_eq, ih bs]
      intro r _
      exact ⟨fun h => h.symm, fun h => h.symm⟩

/-- The executable case-insensitive substring test agrees with the
declarative containment `ciSubstr`. -/
theorem strContainsCI_iff (hay needle : String) :
    strContainsCI hay needle = true ↔ ciSubstr hay needle := by
  unfold strContainsCI ciSubstr
  rw [List.any_eq_true]
  constructor
  · rintro ⟨i, _, hlead⟩
    obtain ⟨r, hr⟩ := (charsLeadWith_iff _ _).mp hlead
    refine ⟨(lowerList hay).take i, r, ?_⟩
    calc lowerList hay
        = (lowerList hay).take i ++ (lowerList hay).drop i :=
          (List.take_append_drop i (lowerList hay)).symm
      _ = (lowerList hay).take i ++ lowerList needle ++ r := by
          rw [hr, List.append_assoc]
  · rintro ⟨l, r, hlr⟩
    refine ⟨l.length, ?_, ?_⟩
    · rw [List.mem_range, hlr]
      simp only [List.length_append]
      omega
    · apply (charsLeadWith_iff _ _).mpr
      refine ⟨r, ?_⟩
      rw [hlr, List.append_assoc, List.drop_left]

/-! ### Claim theorems -/

/-- C1: the program refutes the claim that every update or delete
request on a task of a foreign project is rejected with 405 before any
mutation.  At the failing input — task 1 of project 1 in the store,
acting worker of project 2 — the POST mutation paths (which
`core/views.py` leaves un-overridden) delete the task, respectively
save the edited record, and redirect; only the `get` render handlers
carry the project check and answer 405 "Unauthorized" without
mutating. -/
theorem update_delete_post_bypasses_project_check :
    taskDeleteViewPost [demoT1] demoOutsider 1 =
      some (HttpResult.redirect 302 (taskListUrl demoT1.project), []) ∧
    taskUpdateViewPost [demoT1] demoOutsider 1
        (fun t => { t with name := "Hijacked" }) =
      some (HttpResult.redirect 302 (taskListUrl demoT1.project),
            [{ demoT1 with name := "Hijacked" }]) ∧
    taskUpdateViewGet [demoT1] demoOutsider 1 =
      some (HttpResult.resp 405 "Unauthorized", [demoT1]) ∧
    taskDeleteViewGet [demoT1] demoOutsider 1 =
      some (HttpResult.resp 405 "Unauthorized", [demoT1]) := by
  refine ⟨?_, ?_, ?_, ?_⟩ <;> rfl

/-- C2: toggling completion as a worker who is not among the task's
assignees answers HTTP 405 with body "Unauthorized" and leaves the
store (in particular the task) unchanged. -/
theorem toggle_unauthorized_for_non_assignee
    (tasks : List Task) (user : Worker) (pk : Nat) (task : Task)
    (hget : tasksGet tasks pk = some task) (hna : user.id ∉ task.assignees) :
    toggle_completed tasks user pk =
      (Except.ok (HttpResult.resp 405 "Unauthorized"), tasks) := by
  unfold toggle_completed
  rw [hget]
  simp [hna]

/-- Witness for C2: `demoOutsider` (id 3) is not among task 1's
assignees `[7]`. -/
theorem toggle_unauthorized_witness :
    toggle_completed [demoT1] demoOutsider 1 =
      (Except.ok (HttpResult.resp 405 "Unauthorized"), [demoT1]) :=
  toggle_unauthorized_for_non_assignee [demoT1] demoOutsider 1 demoT1
    (by decide) (by decide)

/-- C3: toggling completion as an assignee negates the completion flag
exactly once, persists the flipped record, and answers a 302 redirect
to the task's detail page. -/
theorem toggle_flips_and_redirects_for_assignee
    (tasks : List Task) (user : Worker) (pk : Nat) (task : Task)
    (hget : tasksGet tasks pk = some task) (ha : user.id ∈ task.assignees) :
    toggle_completed tasks user pk =
      (Except.ok (HttpResult.redirect 302 (taskDetailUrl pk)),
        saveTask tasks { task with is_completed := !task.is_completed }) ∧
    tasksGet (toggle_completed tasks user pk).2 pk =
      some { task with is_completed := !task.is_completed } := by
  have hid : task.id = pk := tasksGet_id tasks pk task hget
  have heq : toggle_completed tasks user pk =
      (Except.ok (HttpResult.redirect 302 (taskDetailUrl pk)),
        saveTask tasks { task with is_completed := !task.is_completed }) := by
    unfold toggle_completed
    rw [hget]
    simp [ha]
  refine ⟨heq, ?_⟩
  rw [heq]
  exact tasksGet_saveTask tasks _ pk ⟨task, hget⟩ hid

/-- Witness for C3: `demoAssignee` (id 7) toggles task 1 whose
assignees are `[7]` and whose flag starts false. -/
theorem toggle_flips_witness :
    toggle_completed [demoT1] demoAssignee 1 =
      (Except.ok (HttpResult.redirect 302 (taskDetailUrl 1)),
        saveTask [demoT1] { demoT1 with is_completed := !demoT1.is_completed }) ∧
    tasksGet (toggle_completed [demoT1] demoAssignee 1).2 1 =
      some { demoT1 with is_completed := !demoT1.is_completed } :=
  toggle_flips_and_redirects_for_assignee [demoT1] demoAssignee 1 demoT1
    (by decide) (by decide)

/-- C4: every task returned by the project listing belongs to the
requested project, for every combination of filter flags. -/
theorem task_listing_only_own_project
    (tasks : List Task) (pid : Nat) (filters : List String) (today : Int)
    (t : Task) (h : t ∈ taskListGetQueryset tasks pid filters today) :
    t.project = pid :=
  ((mem_taskList_iff tasks pid filters today t).mp h).2.1

/-- Witness for C4: `demoT1` is listed under project 1 with no filters,
so its project is 1. -/
theorem task_listing_only_own_project_witness : demoT1.project = 1 :=
  task_listing_only_own_project [demoT1, demoT2] 1 [] 100 demoT1 (by decide)

/-- C5: for a task of the requested project, the `done` listing
contains it iff its flag is true, the default listing iff its flag is
false, and the two listings are mutually exclusive and exhaustive over
the project's tasks. -/
theorem done_filter_partitions_listing
    (tasks : List Task) (pid : Nat) (today : Int) (t : Task)
    (hmem : t ∈ tasks) (hproj : t.project = pid) :
    (t ∈ taskListGetQueryset tasks pid ["done"] today ↔ t.is_completed = true) ∧
    (t ∈ taskListGetQueryset tasks pid [] today ↔ t.is_completed = false) ∧
    (t ∈ taskListGetQueryset tasks pid ["done"] today ↔
      t ∉ taskListGetQueryset tasks pid [] today) := by
  have hp : "past_dl" ∉ (["done"] : List String) := by decide
  have hu : "urgent" ∉ (["done"] : List String) := by decide
  have hd : "done" ∈ (["done"] : List String) := by decide
  have hA : t ∈ taskListGetQueryset tasks pid ["done"] today ↔
      t.is_completed = true := by
    rw [mem_taskList_iff]
    simp [hmem, hproj, hp, hu, hd]
  have hB : t ∈ taskListGetQueryset tasks pid [] today ↔
      t.is_completed = false := by
    rw [mem_taskList_iff]
    simp [hmem, hproj]
  refine ⟨hA, hB, ?_⟩
  rw [hA, hB]
  cases t.is_completed <;> simp

/-- Witness for C5: `demoT2` (flag true) of project 1 sits in the
`done` listing and not in the default one. -/
theorem done_filter_partitions_witness :
    (demoT2 ∈ taskListGetQueryset [demoT1, demoT2] 1 ["done"] 100 ↔
      demoT2.is_completed = true) ∧
    (demoT2 ∈ taskListGetQueryset [demoT1, demoT2] 1 [] 100 ↔
      demoT2.is_completed = false) ∧
    (demoT2 ∈ taskListGetQueryset [demoT1, demoT2] 1 ["done"] 100 ↔
      demoT2 ∉ taskListGetQueryset [demoT1, demoT2] 1 [] 100) :=
  done_filter_partitions_listing [demoT1, demoT2] 1 100 demoT2
    (by decide) (by decide)

/-- C6: the listing is the project's tasks restricted by the
conjunction of the selected filters (deadline before today for
`past_dl`, priority "Urgent" for `urgent`, flag equal to the presence
of `done`); on the spec's scenario, filters `[past_dl, urgent]` yield
`[demoT1]`, `[done]` yields `[demoT2]`, and no filters yield
`[demoT1]`. -/
theorem task_listing_conjunction_of_filters :
    (∀ (tasks : List Task) (pid : Nat) (filters : List String) (today : Int)
        (t : Task),
      t ∈ taskListGetQueryset tasks pid filters today ↔
        t ∈ tasks ∧ t.project = pid ∧
        ("past_dl" ∈ filters → t.deadline < today) ∧
        ("urgent" ∈ filters → t.priority = "Urgent") ∧
        t.is_completed = decide ("done" ∈ filters)) ∧
    taskListGetQueryset [demoT1, demoT2] 1 ["past_dl", "urgent"] 100 = [demoT1] ∧
    taskListGetQueryset [demoT1, demoT2] 1 ["done"] 100 = [demoT2] ∧
    taskListGetQueryset [demoT1, demoT2] 1 [] 100 = [demoT1] :=
  ⟨fun tasks pid filters today t => mem_taskList_iff tasks pid filters today t,
   by decide, by decide, by decide⟩

/-- C7: for a non-empty search string the worker listing keeps exactly
the workers whose first or last name contains it as a case-insensitive
substring (OR over the two fields); on the example store, searching
"ana" keeps "Ana Smith" and "Juliana Ruiz" and drops "Bob Lee". -/
theorem worker_search_ci_substring :
    (∀ (workers : List Worker) (s : String), s ≠ "" → ∀ w : Worker,
      (w ∈ workerListGetQueryset workers (some s) ↔
        w ∈ workers ∧ (ciSubstr w.first_name s ∨ ciSubstr w.last_name s))) ∧
    workerListGetQueryset [anaSmith, julianaRuiz, bobLee] (some "ana") =
      [anaSmith, julianaRuiz] := by
  constructor
  · intro workers s hs w
    have hne : pyTruthy (some s) = true := by
      cases he : s.isEmpty
      · simp [pyTruthy, he]
      · exact absurd ((String.isEmpty_iff s).mp he) hs
    simp only [workerListGetQueryset, hne, if_true, Option.getD_some]
    rw [List.mem_filter]
    simp [Bool.or_eq_true, strContainsCI_iff]
  · decide

/-- Witness for C7: the theorem applied at the example store with
search string "ana" and worker "Ana Smith". -/
theorem worker_search_witness :
    anaSmith ∈ [anaSmith, julianaRuiz, bobLee] ∧
      (ciSubstr anaSmith.first_name "ana" ∨ ciSubstr anaSmith.last_name "ana") :=
  (worker_search_ci_substring.1 [anaSmith, julianaRuiz, bobLee] "ana"
    (by decide) anaSmith).mp (by decide)

/-- C8: toggling a pk that matches no task surfaces the ORM's
`DoesNotExist` error with the store untouched; a pk that matches a task
never raises it. -/
theorem toggle_missing_task_raises (tasks : List Task) (user : Worker) (pk : Nat) :
    (tasksGet tasks pk = none →
      toggle_completed tasks user pk = (Except.error DbError.doesNotExist, tasks)) ∧
    (∀ task, tasksGet tasks pk = some task →
      ∃ r, (toggle_completed tasks user pk).1 = Except.ok r) := by
  constructor
  · intro h
    unfold toggle_completed
    rw [h]
  · intro task h
    unfold toggle_completed
    rw [h]
    by_cases ha : user.id ∈ task.assignees <;> simp [ha]

/-- Witness for C8: an empty store has no task 1, so the toggle raises
`DoesNotExist` and the store stays empty. -/
theorem toggle_missing_task_witness :
    toggle_completed [] demoOutsider 1 = (Except.error DbError.doesNotExist, []) :=
  (toggle_missing_task_raises [] demoOutsider 1).1 rfl

/-- C9: two successive toggles by an assignee restore the task record
(in particular its completion flag) to its original value. -/
theorem toggle_twice_restores
    (tasks : List Task) (user : Worker) (pk : Nat) (task : Task)
    (hget : tasksGet tasks pk = some task) (ha : user.id ∈ task.assignees) :
    tasksGet (toggle_completed (toggle_completed tasks user pk).2 user pk).2 pk =
      some task := by
  have hid : task.id = pk := tasksGet_id tasks pk task hget
  have h1 : (toggle_completed tasks user pk).2 =
      saveTask tasks { task with is_completed := !task.is_completed } := by
    unfold toggle_completed
    rw [hget]
    simp [ha]
  have hget1 : tasksGet (saveTask tasks { task with is_completed := !task.is_completed }) pk =
      some { task with is_completed := !task.is_completed } :=
    tasksGet_saveTask tasks _ pk ⟨task, hget⟩ hid
  have ha1 : user.id ∈ ({ task with is_completed := !task.is_completed } : Task).assignees :=
    ha
  have h2 : (toggle_completed
        (saveTask tasks { task with is_completed := !task.is_completed }) user pk).2 =
      saveTask (saveTask tasks { task with is_completed := !task.is_completed }) task := by
    unfold toggle_completed
    rw [hget1]
    simp only [ha1, if_pos]
    cases task
    simp
  rw [h1, h2]
  exact tasksGet_saveTask _ task pk ⟨_, hget1⟩ hid

/-- Witness for C9: toggling task 1 twice as `demoAssignee` returns the
original record. -/
theorem toggle_twice_restores_witness :
    tasksGet (toggle_completed (toggle_completed [demoT1] demoAssignee 1).2
        demoAssignee 1).2 1 = some demoT1 :=
  toggle_twice_restores [demoT1] demoAssignee 1 demoT1 (by decide) (by decide)

/-- C10: with the search parameter absent or empty the worker listing
returns every stored worker, and the reported `num_workers` always
equals the total worker count. -/
theorem empty_search_returns_all_workers :
    (∀ workers : List Worker, workerListGetQueryset workers none = workers) ∧
    (∀ workers : List Worker, workerListGetQueryset workers (some "") = workers) ∧
    (∀ workers : List Worker, workerListNumWorkers workers = workers.length) :=
  ⟨fun _ => rfl, fun _ => rfl, fun _ => rfl⟩

end CompanyTaskManager
